import Mathlib

/-!
Verification of the word-cloud layout engine of jetrica/obsidian-word-cloud
(src/main.ts) against its natural-language specification.

The TypeScript source is shallowly embedded below.  Numbers that JavaScript
represents as IEEE doubles are modelled as exact rationals; rotations, which
only ever take the values 0, 90 and -90, are integers; font sizes, which the
code always produces via Math.floor, are integers.  The sources of
nondeterminism and host-environment input are passed in as explicit
parameters:

* Math.cos / Math.sin / Math.PI are transcendental, so the layout functions
  take arbitrary functions cosF, sinF : Q -> Q and a constant piQ : Q in
  their place.  None of the layout invariants proved here depend on the
  values these functions return: the spiral search only ever accepts a
  candidate after the bounds check and overlap test have passed, whatever
  point the candidate is.
* Math.random draws are passed in as rational parameters (per-word triples
  for font size / color / rotation, per-word draws for the spiral start
  angle), constrained to [0,1) where a claim needs it.
* The comparator shuffle [...words].sort(() => Math.random() - 0.5) is
  modelled as an arbitrary function `shuffle` together with the hypothesis
  that it permutes its input.
* canvas measureText is an arbitrary function measureW : word -> fontSize -> Q.
-/

/-- Spacing configuration record, from the SPACING_CONFIG table. -/
structure SpacingConfig where
  padding : ℚ
  margin : ℚ
  startRadius : ℚ
  spiralStep : ℚ
deriving DecidableEq

/-- The four spacing presets. -/
inductive SpacingKind where
  | compact
  | normal
  | comfortable
  | loose
deriving DecidableEq

/-- SPACING_CONFIG from src/main.ts lines 35-40. -/
def SPACING_CONFIG : SpacingKind → SpacingConfig
  | .compact => ⟨3, 5, 1, 3/2⟩
  | .normal => ⟨12, 12, 5, 4⟩
  | .comfortable => ⟨22, 18, 12, 7⟩
  | .loose => ⟨35, 25, 20, 10⟩

/-- getAutoSpacing from src/main.ts lines 45-58. -/
def getAutoSpacing (wordCount : ℕ) (isMobile : Bool) : SpacingConfig :=
  if isMobile then
    if wordCount ≤ 10 then SPACING_CONFIG .comfortable
    else if wordCount ≤ 20 then SPACING_CONFIG .normal
    else SPACING_CONFIG .compact
  else
    if wordCount ≤ 10 then SPACING_CONFIG .loose
    else if wordCount ≤ 20 then SPACING_CONFIG .comfortable
    else if wordCount ≤ 40 then SPACING_CONFIG .normal
    else SPACING_CONFIG .compact

/-- Font-size range record returned by getAutoFontSizes. -/
structure FontSizes where
  min : ℤ
  max : ℤ
deriving DecidableEq

/-- getAutoFontSizes from src/main.ts lines 113-129. -/
def getAutoFontSizes (wordCount : ℕ) (isMobile : Bool) : FontSizes :=
  if isMobile then
    if wordCount ≤ 10 then ⟨14, 32⟩
    else if wordCount ≤ 20 then ⟨12, 26⟩
    else if wordCount ≤ 40 then ⟨10, 20⟩
    else if wordCount ≤ 70 then ⟨9, 16⟩
    else ⟨8, 14⟩
  else
    if wordCount ≤ 10 then ⟨20, 56⟩
    else if wordCount ≤ 20 then ⟨16, 40⟩
    else if wordCount ≤ 40 then ⟨14, 32⟩
    else if wordCount ≤ 70 then ⟨12, 28⟩
    else ⟨10, 22⟩

/-- The four casing modes of the settings. -/
inductive Casing where
  | asIs
  | uppercase
  | lowercase
  | titleCase
deriving DecidableEq

/-- word.charAt(0).toUpperCase() + word.slice(1), as used on each token in the
multi-word branch of the title-case transform. -/
def capFirst : List Char → List Char
  | [] => []
  | c :: cs => Char.toUpper c :: cs

/-- text.charAt(0).toUpperCase() + text.slice(1).toLowerCase(), the
single-token branch of the title-case transform. -/
def capFirstRestLower : List Char → List Char
  | [] => []
  | c :: cs => Char.toUpper c :: cs.map Char.toLower

/-- The fixed small-word list of the title-case transform
(src/main.ts lines 75-91). -/
def smallWords : List (List Char) :=
  ["a".toList, "an".toList, "and".toList, "as".toList, "at".toList,
   "but".toList, "by".toList, "for".toList, "in".toList, "of".toList,
   "on".toList, "or".toList, "the".toList, "to".toList, "with".toList]

/-- JavaScript String.split with a one-character separator: returns the
(possibly empty) chunks between occurrences of the separator; the result is
never the empty list ("".split(sep) is [""]). -/
def splitOnChar (sep : Char) : List Char → List (List Char)
  | [] => [[]]
  | c :: cs =>
    match splitOnChar sep cs with
    | [] => [[]]
    | t :: ts => if c = sep then [] :: t :: ts else (c :: t) :: ts

/-- The indexed map over tokens in the multi-word branch of the title-case
transform: capitalize a token unless it is a small word that is neither
first nor last (src/main.ts lines 92-103). -/
def titleWords (len : ℕ) : ℕ → List (List Char) → List (List Char)
  | _, [] => []
  | i, w :: ws =>
    (if i = 0 ∨ i = len - 1 ∨ w ∉ smallWords then capFirst w else w) ::
      titleWords len (i + 1) ws

/-- applyCasing from src/main.ts lines 61-110. -/
def applyCasing (text : List Char) : Casing → List Char
  | .uppercase => text.map Char.toUpper
  | .lowercase => text.map Char.toLower
  | .titleCase =>
    let words := splitOnChar ' ' (text.map Char.toLower)
    if words.length = 1 then capFirstRestLower text
    else List.intercalate [' '] (titleWords words.length 0 words)
  | .asIs => text

/-- Model of JavaScript String.trim: strip whitespace from both ends. -/
def jsTrim (s : List Char) : List Char :=
  ((s.dropWhile Char.isWhitespace).reverse.dropWhile Char.isWhitespace).reverse

/-- The parsing pass of renderWordCloud (src/main.ts lines 179-185):
split on the separator, trim, drop empty tokens, apply the casing
transform. -/
def parseWords (sep : Char) (casing : Casing) (source : List Char) :
    List (List Char) :=
  (((splitOnChar sep source).map jsTrim).filter
      (fun w => decide (0 < w.length))).map (fun w => applyCasing w casing)

/-- Outcome of the renderWordCloud entry point: either the empty-input
placeholder paragraph, or a word cloud over the parsed token list. -/
inductive RenderResult where
  | placeholder (msg : List Char)
  | cloud (words : List (List Char))
deriving DecidableEq

/-- The placeholder message interpolating the configured separator
(src/main.ts lines 188-190). -/
def placeholderMsg (sep : Char) : List Char :=
  "No words provided. Add ".toList ++ [sep] ++ "-separated words.".toList

/-- renderWordCloud entry decision (src/main.ts lines 174-192): empty token
list renders the placeholder, otherwise the cloud is rendered over the
parsed words.  The function is total: no failure path exists. -/
def renderWordCloud (sep : Char) (casing : Casing) (source : List Char) :
    RenderResult :=
  let words := parseWords sep casing source
  if words.length = 0 then .placeholder (placeholderMsg sep)
  else .cloud words

/-- Number of labels the render entry point goes on to lay out. -/
def labelCount : RenderResult → ℕ
  | .placeholder _ => 0
  | .cloud words => words.length

/-- PlacedRect from src/main.ts lines 131-137. -/
structure PlacedRect where
  centerX : ℚ
  centerY : ℚ
  width : ℚ
  height : ℚ
  rotation : ℤ
deriving DecidableEq

/-- Collision width of a placed rectangle: width and height are swapped when
the rotation is plus or minus 90 degrees (Math.abs(rotation) === 90). -/
def rotW (r : PlacedRect) : ℚ :=
  if r.rotation.natAbs = 90 then r.height else r.width

/-- Collision height of a placed rectangle, the companion of rotW. -/
def rotH (r : PlacedRect) : ℚ :=
  if r.rotation.natAbs = 90 then r.width else r.height

/-- checkOverlap from src/main.ts lines 250-281: each rectangle is taken with
its rotation-swapped dimensions, expanded by the full padding on every side,
and the two expanded axis-aligned boxes are tested for overlap. -/
def checkOverlap (padding : ℚ) (rect1 rect2 : PlacedRect) : Bool :=
  !(decide (rect1.centerX + rotW rect1 / 2 + padding <
        rect2.centerX - rotW rect2 / 2 - padding) ||
    decide (rect1.centerX - rotW rect1 / 2 - padding >
        rect2.centerX + rotW rect2 / 2 + padding) ||
    decide (rect1.centerY + rotH rect1 / 2 + padding <
        rect2.centerY - rotH rect2 / 2 - padding) ||
    decide (rect1.centerY - rotH rect1 / 2 - padding >
        rect2.centerY + rotH rect2 / 2 + padding))

/-- The closed axis-aligned footprint of a placed rectangle, with rotation
swap applied and expanded by pad on every side, as a set of points. -/
def footprint (pad : ℚ) (r : PlacedRect) : Set (ℚ × ℚ) :=
  {p : ℚ × ℚ |
    r.centerX - rotW r / 2 - pad ≤ p.1 ∧ p.1 ≤ r.centerX + rotW r / 2 + pad ∧
    r.centerY - rotH r / 2 - pad ≤ p.2 ∧ p.2 ≤ r.centerY + rotH r / 2 + pad}

/-- The in-bounds region of the surface, margin units inside each edge. -/
def inBoundsSet (margin w h : ℚ) : Set (ℚ × ℚ) :=
  {p : ℚ × ℚ | margin ≤ p.1 ∧ p.1 ≤ w - margin ∧ margin ≤ p.2 ∧ p.2 ≤ h - margin}

/-- WordData from src/main.ts lines 139-147 (the temp element produced per
word: measured footprint plus the resolved visual attributes). -/
structure WordData where
  width : ℚ
  height : ℚ
  fontSize : ℤ
  color : List Char
  rotation : ℤ
  word : List Char
  isCentered : Bool
deriving DecidableEq

/-- Per-word label construction from src/main.ts lines 331-362: resolve the
font size (fixed formula for the focused word, uniform draw otherwise), a
random palette color, a random rotation from the weighted list, and the
measured footprint (Math.ceil(metrics.width) + 8 by fontSize + 8).  The
random draws r.1, r.2.1, r.2.2 stand for the three Math.random() calls and
measureW for canvas measureText at the resolved font size. -/
def mkLabel (minFontSize maxFontSize : ℤ) (colors : List (List Char))
    (centeredWord : Option (List Char)) (measureW : List Char → ℤ → ℚ)
    (r : ℚ × ℚ × ℚ) (word : List Char) : WordData :=
  let isCentered :=
    match centeredWord with
    | some cw => decide (word = cw)
    | none => false
  let fontSize : ℤ :=
    if isCentered then ⌊(((maxFontSize : ℚ) + (minFontSize : ℚ)) / 2 + 10)⌋
    else ⌊r.1 * ((maxFontSize : ℚ) - (minFontSize : ℚ) + 1)⌋ + minFontSize
  let color := colors.getD (Int.toNat ⌊r.2.1 * (colors.length : ℚ)⌋) []
  let rotations : List ℤ := if isCentered then [0] else [0, 0, 0, 0, 90, -90]
  let rotation := rotations.getD (Int.toNat ⌊r.2.2 * (rotations.length : ℚ)⌋) 0
  let width : ℚ := ((⌈measureW word fontSize⌉ + 8 : ℤ) : ℚ)
  let height : ℚ := ((fontSize + 8 : ℤ) : ℚ)
  ⟨width, height, fontSize, color, rotation, word, isCentered⟩

/-- The per-word loop of renderWords building tempElements, indexing the
random stream by list position. -/
def mkLabels (minFontSize maxFontSize : ℤ) (colors : List (List Char))
    (centeredWord : Option (List Char)) (measureW : List Char → ℤ → ℚ)
    (rnd : ℕ → ℚ × ℚ × ℚ) : ℕ → List (List Char) → List WordData
  | _, [] => []
  | i, w :: ws =>
    mkLabel minFontSize maxFontSize colors centeredWord measureW (rnd i) w ::
      mkLabels minFontSize maxFontSize colors centeredWord measureW rnd (i + 1) ws

/-- The shuffledWords construction of renderWords (src/main.ts lines
237-246): with a centered word, that word followed by a shuffle of the words
that differ from it, else a shuffle of the whole list. -/
def buildShuffled (words : List (List Char)) (centeredWord : Option (List Char))
    (shuffle : List (List Char) → List (List Char)) : List (List Char) :=
  match centeredWord with
  | some cw => cw :: shuffle (words.filter (fun w => decide ¬(w = cw)))
  | none => shuffle words

/-- tempElements.sort((a, b) => b.width * b.height - a.width * a.height):
sort by descending footprint area (src/main.ts lines 370-373). -/
def sortByAreaDesc (l : List WordData) : List WordData :=
  l.mergeSort (fun a b => decide (b.width * b.height ≤ a.width * a.height))

/-- The spiral-search loop of positionWords (src/main.ts lines 424-485),
with the attempts counter made explicit: the first component is the accepted
rectangle, if any, and the second is the number of loop iterations executed.
The fuel argument models maxAttempts - attempts; the loop exits as soon as
the radius reaches twice the larger surface dimension or the fuel runs out.
cosF, sinF and piQ stand for Math.cos, Math.sin and Math.PI. -/
def spiralLoopC (cosF sinF : ℚ → ℚ) (piQ : ℚ) (cfg : SpacingConfig) (w h : ℚ)
    (tagWidth tagHeight : ℚ) (rotation : ℤ) (placed : List PlacedRect) :
    ℕ → ℚ → ℚ → Option PlacedRect × ℕ
  | 0, _, _ => (none, 0)
  | fuel + 1, spiralRadius, angle =>
    if spiralRadius < max w h * 2 then
      let testCenterX := w / 2 + spiralRadius * cosF angle
      let testCenterY := h / 2 + spiralRadius * sinF angle
      let neededWidth := if rotation.natAbs = 90 then tagHeight else tagWidth
      let neededHeight := if rotation.natAbs = 90 then tagWidth else tagHeight
      if cfg.margin ≤ testCenterX - neededWidth / 2 ∧
          testCenterX + neededWidth / 2 ≤ w - cfg.margin ∧
          cfg.margin ≤ testCenterY - neededHeight / 2 ∧
          testCenterY + neededHeight / 2 ≤ h - cfg.margin then
        if (placed.all fun p =>
            !(checkOverlap cfg.padding
              ⟨testCenterX, testCenterY, tagWidth, tagHeight, rotation⟩ p)) then
          (some ⟨testCenterX, testCenterY, tagWidth, tagHeight, rotation⟩, 1)
        else
          let res := spiralLoopC cosF sinF piQ cfg w h tagWidth tagHeight rotation
            placed fuel (spiralRadius + cfg.spiralStep * ((8/100) / (2 * piQ)))
            (angle + 8/100)
          (res.1, res.2 + 1)
      else
        let res := spiralLoopC cosF sinF piQ cfg w h tagWidth tagHeight rotation
          placed fuel (spiralRadius + cfg.spiralStep * ((8/100) / (2 * piQ)))
          (angle + 8/100)
        (res.1, res.2 + 1)
    else (none, 0)

/-- Placement of one temp element (src/main.ts lines 392-490): the centered
label is pinned at the surface center with its footprint scaled by 1.5 in
both dimensions and always succeeds; any other label runs the spiral search
from radius 120 at the given start angle with fuel 20000. -/
def placeElement (cosF sinF : ℚ → ℚ) (piQ : ℚ) (cfg : SpacingConfig) (w h : ℚ)
    (startAngle : ℚ) (placed : List PlacedRect) (t : WordData) :
    Option PlacedRect :=
  if t.isCentered then
    some ⟨w / 2, h / 2, t.width * (3/2), t.height * (3/2), t.rotation⟩
  else
    (spiralLoopC cosF sinF piQ cfg w h t.width t.height t.rotation placed
      20000 120 startAngle).1

/-- placedElements.push on success, no change on failure. -/
def pushOpt (placed : List PlacedRect) : Option PlacedRect → List PlacedRect
  | some r => placed ++ [r]
  | none => placed

/-- The per-element fold of positionWords over tempElements, accumulating the
placed-set; each element draws its spiral start angle Math.random() * PI * 2
from the angle stream at its position. -/
def positionWords (cosF sinF : ℚ → ℚ) (piQ : ℚ) (cfg : SpacingConfig)
    (w h : ℚ) (angles : ℕ → ℚ) :
    List WordData → ℕ → List PlacedRect → List (WordData × Option PlacedRect)
  | [], _, _ => []
  | t :: rest, i, placed =>
    let res := placeElement cosF sinF piQ cfg w h (angles i * piQ * 2) placed t
    (t, res) :: positionWords cosF sinF piQ cfg w h angles rest (i + 1)
      (pushOpt placed res)

/-- A full layout pass of renderWords (src/main.ts lines 234-555): build the
shuffled word order, generate the labels, sort by descending area unless a
word is focused, then run placement with an empty placed-set. -/
def renderWords (cosF sinF : ℚ → ℚ) (piQ : ℚ) (cfg : SpacingConfig) (w h : ℚ)
    (minFontSize maxFontSize : ℤ) (colors : List (List Char))
    (measureW : List Char → ℤ → ℚ)
    (shuffle : List (List Char) → List (List Char)) (rnd : ℕ → ℚ × ℚ × ℚ)
    (angles : ℕ → ℚ) (words : List (List Char))
    (centeredWord : Option (List Char)) : List (WordData × Option PlacedRect) :=
  let shuffledWords := buildShuffled words centeredWord shuffle
  let tempElements :=
    mkLabels minFontSize maxFontSize colors centeredWord measureW rnd 0
      shuffledWords
  let ordered :=
    match centeredWord with
    | some _ => tempElements
    | none => sortByAreaDesc tempElements
  positionWords cosF sinF piQ cfg w h angles ordered 0 []

/-- The entries of a layout result that are actually rendered: a label whose
search was exhausted has its tag removed (src/main.ts lines 487-489). -/
def renderedEntries (res : List (WordData × Option PlacedRect)) :
    List (WordData × Option PlacedRect) :=
  res.filter (fun e => e.2.isSome)

/-- Helper: mkLabels produces exactly one label per word of its input. -/
theorem mkLabels_length (minF maxF : ℤ) (colors : List (List Char))
    (cw : Option (List Char)) (measureW : List Char → ℤ → ℚ)
    (rnd : ℕ → ℚ × ℚ × ℚ) :
    ∀ (l : List (List Char)) (i : ℕ),
      (mkLabels minF maxF colors cw measureW rnd i l).length = l.length := by
  intro l
  induction l with
  | nil => intro i; rfl
  | cons w ws ih => intro i; simpa [mkLabels] using ih (i + 1)

/-- C6 (amended): the font-size table is bucketed by word-count thresholds
10, 20, 40, 70 with a distinct hand-tuned range per bucket and a second,
tighter table for compact (mobile) viewports; in particular every word count
in 41..70 on a non-compact viewport yields the range min 12, max 28.  The
spacing table, by contrast, has no 70 threshold: it is bucketed by 10, 20,
40 on desktop (10, 20 on mobile), and every word count above 40 shares the
compact profile. -/
theorem c6_bucket_tables :
    (∀ n : ℕ, n ≤ 10 → getAutoFontSizes n false = ⟨20, 56⟩) ∧
    (∀ n : ℕ, 11 ≤ n → n ≤ 20 → getAutoFontSizes n false = ⟨16, 40⟩) ∧
    (∀ n : ℕ, 21 ≤ n → n ≤ 40 → getAutoFontSizes n false = ⟨14, 32⟩) ∧
    (∀ n : ℕ, 41 ≤ n → n ≤ 70 → getAutoFontSizes n false = ⟨12, 28⟩) ∧
    (∀ n : ℕ, 71 ≤ n → getAutoFontSizes n false = ⟨10, 22⟩) ∧
    (∀ n : ℕ, n ≤ 10 → getAutoFontSizes n true = ⟨14, 32⟩) ∧
    (∀ n : ℕ, 11 ≤ n → n ≤ 20 → getAutoFontSizes n true = ⟨12, 26⟩) ∧
    (∀ n : ℕ, 21 ≤ n → n ≤ 40 → getAutoFontSizes n true = ⟨10, 20⟩) ∧
    (∀ n : ℕ, 41 ≤ n → n ≤ 70 → getAutoFontSizes n true = ⟨9, 16⟩) ∧
    (∀ n : ℕ, 71 ≤ n → getAutoFontSizes n true = ⟨8, 14⟩) ∧
    ([(⟨20, 56⟩ : FontSizes), ⟨16, 40⟩, ⟨14, 32⟩, ⟨12, 28⟩, ⟨10, 22⟩].Pairwise
      (fun a b => a ≠ b)) ∧
    ([(⟨14, 32⟩ : FontSizes), ⟨12, 26⟩, ⟨10, 20⟩, ⟨9, 16⟩, ⟨8, 14⟩].Pairwise
      (fun a b => a ≠ b)) ∧
    (∀ n : ℕ, n ≤ 10 → getAutoSpacing n false = SPACING_CONFIG .loose) ∧
    (∀ n : ℕ, 11 ≤ n → n ≤ 20 → getAutoSpacing n false = SPACING_CONFIG .comfortable) ∧
    (∀ n : ℕ, 21 ≤ n → n ≤ 40 → getAutoSpacing n false = SPACING_CONFIG .normal) ∧
    (∀ n : ℕ, 41 ≤ n → getAutoSpacing n false = SPACING_CONFIG .compact) ∧
    (∀ n : ℕ, n ≤ 10 → getAutoSpacing n true = SPACING_CONFIG .comfortable) ∧
    (∀ n : ℕ, 11 ≤ n → n ≤ 20 → getAutoSpacing n true = SPACING_CONFIG .normal) ∧
    (∀ n : ℕ, 21 ≤ n → getAutoSpacing n true = SPACING_CONFIG .compact) := by
  refine ⟨?_, ?_, ?_, ?_, ?_, ?_, ?_, ?_, ?_, ?_, ?_, ?_, ?_, ?_, ?_, ?_, ?_, ?_, ?_⟩ <;>
    first
      | decide
      | (intro n h
         simp only [getAutoFontSizes, getAutoSpacing]
         split_ifs <;> first | rfl | omega | simp_all)

/-- C6 witness: 45 words on a desktop viewport get the 41..70 range. -/
theorem c6_witness :
    getAutoFontSizes 45 false = ⟨12, 28⟩ :=
  c6_bucket_tables.2.2.2.1 45 (by norm_num) (by norm_num)

/-- C6 counterexample: the spacing table is not bucketed by a 70 threshold
with a distinct value per bucket; a 41..70 word count and a word count above
70 both map to the same compact profile on a non-compact viewport (and the
same holds on mobile). -/
theorem c6_counterexample :
    getAutoSpacing 45 false = SPACING_CONFIG .compact ∧
    getAutoSpacing 100 false = SPACING_CONFIG .compact ∧
    getAutoSpacing 45 true = SPACING_CONFIG .compact ∧
    getAutoSpacing 100 true = SPACING_CONFIG .compact := ⟨rfl, rfl, rfl, rfl⟩

/-- C9: when parsing the input yields zero tokens, the render entry point
returns the placeholder paragraph whose text interpolates the configured
separator, and zero labels are laid out; the function is total so no error
is raised. -/
theorem c9_empty_input_placeholder (sep : Char) (casing : Casing)
    (source : List Char) (h : parseWords sep casing source = []) :
    renderWordCloud sep casing source = .placeholder (placeholderMsg sep) ∧
    sep ∈ placeholderMsg sep ∧
    labelCount (renderWordCloud sep casing source) = 0 := by
  refine ⟨?_, ?_, ?_⟩
  · simp [renderWordCloud, h]
  · simp [placeholderMsg]
  · simp [renderWordCloud, h, labelCount]

/-- C9 witness: a source of one blank with the comma separator parses to no
tokens and renders the placeholder. -/
theorem c9_witness :
    renderWordCloud ',' .asIs " ".toList =
      .placeholder (placeholderMsg ',') ∧
    ',' ∈ placeholderMsg ',' ∧
    labelCount (renderWordCloud ',' .asIs " ".toList) = 0 :=
  c9_empty_input_placeholder ',' .asIs " ".toList (by decide)

/-- C10: the padded-AABB overlap test is symmetric in its two rectangles,
for every padding, every pair of centers and dimensions, and every pair of
rotations, so the no-overlap relation maintained by the placement engine is
order-independent. -/
theorem c10_checkOverlap_symm (padding : ℚ) (rect1 rect2 : PlacedRect) :
    checkOverlap padding rect1 rect2 = checkOverlap padding rect2 rect1 := by
  have h : ∀ a b c d : Bool, (!(a || b || c || d)) = (!(b || a || d || c)) := by
    decide
  simp only [checkOverlap]
  exact h _ _ _ _

/-- C7: with a valid size range and a valid random draw, the focused word's
font size is the fixed formula floor((min+max)/2) + 10, which is strictly
larger than the midpoint (min+max)/2 of the random range, and an unfocused
word's font size (the floored uniform draw) always lies in [min, max]. -/
theorem c7_font_size_formulas (minF maxF : ℤ) (colors : List (List Char))
    (measureW : List Char → ℤ → ℚ) (cw w : List Char) (r1 r2 r3 : ℚ)
    (hle : minF ≤ maxF) (hr0 : 0 ≤ r1) (hr1 : r1 < 1) (hw : ¬(w = cw)) :
    (mkLabel minF maxF colors (some cw) measureW (r1, r2, r3) cw).fontSize =
      ⌊((minF : ℚ) + (maxF : ℚ)) / 2⌋ + 10 ∧
    ((minF : ℚ) + (maxF : ℚ)) / 2 <
      (((mkLabel minF maxF colors (some cw) measureW (r1, r2, r3) cw).fontSize : ℤ) : ℚ) ∧
    minF ≤ (mkLabel minF maxF colors (some cw) measureW (r1, r2, r3) w).fontSize ∧
    (mkLabel minF maxF colors (some cw) measureW (r1, r2, r3) w).fontSize ≤ maxF := by
  have hfoc :
      (mkLabel minF maxF colors (some cw) measureW (r1, r2, r3) cw).fontSize =
        ⌊((minF : ℚ) + (maxF : ℚ)) / 2⌋ + 10 := by
    simp only [mkLabel, decide_eq_true_eq, eq_self_iff_true, if_true]
    rw [add_comm ((maxF : ℚ)) ((minF : ℚ))]
    rw [show ((10 : ℚ)) = ((10 : ℤ) : ℚ) by norm_num, Int.floor_add_int]
  have hunf :
      (mkLabel minF maxF colors (some cw) measureW (r1, r2, r3) w).fontSize =
        ⌊r1 * ((maxF : ℚ) - (minF : ℚ) + 1)⌋ + minF := by
    simp [mkLabel, hw]
  have hmle : (minF : ℚ) ≤ (maxF : ℚ) := by exact_mod_cast hle
  have hk : (0 : ℚ) < (maxF : ℚ) - (minF : ℚ) + 1 := by linarith
  refine ⟨hfoc, ?_, ?_, ?_⟩
  · rw [hfoc]
    have := Int.lt_floor_add_one (((minF : ℚ) + (maxF : ℚ)) / 2)
    push_cast
    push_cast at this
    linarith
  · rw [hunf]
    have h1 : 0 ≤ ⌊r1 * ((maxF : ℚ) - (minF : ℚ) + 1)⌋ :=
      Int.floor_nonneg.mpr (mul_nonneg hr0 hk.le)
    omega
  · rw [hunf]
    have h2 : ⌊r1 * ((maxF : ℚ) - (minF : ℚ) + 1)⌋ < maxF - minF + 1 := by
      apply Int.floor_lt.mpr
      have hlt : r1 * ((maxF : ℚ) - (minF : ℚ) + 1) <
          1 * ((maxF : ℚ) - (minF : ℚ) + 1) :=
        mul_lt_mul_of_pos_right hr1 hk
      push_cast
      linarith
    omega

/-- C7 witness: range 12..28 with draw one half; the focused size is 30 and
the unfocused size lies in the range. -/
theorem c7_witness :
    (mkLabel 12 28 [] (some ['a']) (fun _ _ => 0) (1/2, 0, 0) ['a']).fontSize =
      ⌊((12 : ℚ) + (28 : ℚ)) / 2⌋ + 10 ∧
    ((12 : ℚ) + (28 : ℚ)) / 2 <
      (((mkLabel 12 28 [] (some ['a']) (fun _ _ => 0) (1/2, 0, 0) ['a']).fontSize : ℤ) : ℚ) ∧
    (12 : ℤ) ≤ (mkLabel 12 28 [] (some ['a']) (fun _ _ => 0) (1/2, 0, 0) ['b']).fontSize ∧
    (mkLabel 12 28 [] (some ['a']) (fun _ _ => 0) (1/2, 0, 0) ['b']).fontSize ≤ 28 :=
  c7_font_size_formulas 12 28 [] (fun _ _ => 0) ['a'] ['b'] (1/2) 0 0
    (by norm_num) (by norm_num) (by norm_num) (by decide)

/-- C5 (amended): in a pass without a focus word every word of the token
list, duplicates included, yields exactly one label; in a pass with a focus
word the focused word is processed first and the remaining labels are
exactly the words differing from the focus word, in shuffled order — every
duplicate occurrence of the focus word itself is dropped by the filter, so
such a pass yields one label for the focus word plus one per non-focus
word. -/
theorem c5_labels_per_word (words : List (List Char)) (cw : List Char)
    (shuffle : List (List Char) → List (List Char))
    (hsh : ∀ l, (shuffle l).Perm l) (minF maxF : ℤ) (colors : List (List Char))
    (measureW : List Char → ℤ → ℚ) (rnd : ℕ → ℚ × ℚ × ℚ) :
    (mkLabels minF maxF colors none measureW rnd 0
        (buildShuffled words none shuffle)).length = words.length ∧
    (∃ rest, buildShuffled words (some cw) shuffle = cw :: rest ∧
      rest.Perm (words.filter (fun w => decide ¬(w = cw)))) ∧
    (mkLabels minF maxF colors (some cw) measureW rnd 0
        (buildShuffled words (some cw) shuffle)).length =
      1 + (words.filter (fun w => decide ¬(w = cw))).length := by
  refine ⟨?_, ⟨shuffle (words.filter (fun w => decide ¬(w = cw))), rfl, hsh _⟩, ?_⟩
  · rw [mkLabels_length]
    exact (hsh words).length_eq
  · rw [mkLabels_length]
    simp [buildShuffled, (hsh _).length_eq, Nat.add_comm]

/-- C5 witness: a two-word list with a focus on the first word. -/
theorem c5_witness :
    (mkLabels 12 28 [] none (fun _ _ => 0) (fun _ => (0, 0, 0)) 0
        (buildShuffled [['a'], ['b']] none id)).length = 2 ∧
    (∃ rest, buildShuffled [['a'], ['b']] (some ['a']) id = ['a'] :: rest ∧
      rest.Perm ([['a'], ['b']].filter (fun w => decide ¬(w = ['a'])))) ∧
    (mkLabels 12 28 [] (some ['a']) (fun _ _ => 0) (fun _ => (0, 0, 0)) 0
        (buildShuffled [['a'], ['b']] (some ['a']) id)).length =
      1 + ([['a'], ['b']].filter (fun w => decide ¬(w = ['a']))).length :=
  c5_labels_per_word [['a'], ['b']] ['a'] id (fun l => List.Perm.refl l)
    12 28 [] (fun _ _ => 0) (fun _ => (0, 0, 0))

/-- C5 counterexample: a token list consisting of the focus word twice
yields a single label, not one per word — the filter in the focused branch
drops every duplicate of the focus word. -/
theorem c5_counterexample :
    (mkLabels 12 28 [] (some ['a']) (fun _ _ => 0) (fun _ => (0, 0, 0)) 0
        (buildShuffled [['a'], ['a']] (some ['a']) id)).length = 1 ∧
    ([['a'], ['a']] : List (List Char)).length = 2 := by
  constructor
  · rw [mkLabels_length]
    rfl
  · rfl

/-- Helper: the JavaScript split never returns an empty chunk list. -/
theorem splitOnChar_ne_nil (sep : Char) : ∀ s, splitOnChar sep s ≠ [] := by
  intro s
  cases s with
  | nil => simp [splitOnChar]
  | cons c cs =>
    simp only [splitOnChar]
    cases splitOnChar sep cs with
    | nil => simp
    | cons t ts => by_cases hc : c = sep <;> simp [hc]

/-- Helper: splitting a separator-free chunk returns just that chunk. -/
theorem splitOnChar_no_sep (sep : Char) :
    ∀ t, sep ∉ t → splitOnChar sep t = [t] := by
  intro t
  induction t with
  | nil => intro _; rfl
  | cons c cs ih =>
    intro h
    have hc : ¬(c = sep) := fun hce => h (hce ▸ List.mem_cons_self c cs)
    have hcs : sep ∉ cs := fun hm => h (List.mem_cons_of_mem c hm)
    simp only [splitOnChar, ih hcs]
    simp [hc]

/-- Helper: splitting peels a leading separator-free chunk. -/
theorem splitOnChar_append (sep : Char) :
    ∀ t rest, sep ∉ t →
      splitOnChar sep (t ++ sep :: rest) = t :: splitOnChar sep rest := by
  intro t
  induction t with
  | nil =>
    intro rest _
    cases hsp : splitOnChar sep rest with
    | nil => exact absurd hsp (splitOnChar_ne_nil sep rest)
    | cons t0 ts => simp [splitOnChar, hsp]
  | cons c cs ih =>
    intro rest h
    have hc : ¬(c = sep) := fun hce => h (hce ▸ List.mem_cons_self c cs)
    have hcs : sep ∉ cs := fun hm => h (List.mem_cons_of_mem c hm)
    simp only [List.cons_append]
    rw [splitOnChar, ih rest hcs]
    simp [hc]

/-- Helper: intercalate of a single chunk. -/
theorem intercalate_one (s a : List Char) : List.intercalate s [a] = a := by
  simp [List.intercalate, List.intersperse]

/-- Helper: intercalate unfolding on two or more chunks. -/
theorem intercalate_two (s a b : List Char) (l : List (List Char)) :
    List.intercalate s (a :: b :: l) = a ++ s ++ List.intercalate s (b :: l) := by
  simp [List.intercalate, List.intersperse]

/-- Helper: splitting is a left inverse of joining nonempty separator-free
chunks with the separator. -/
theorem splitOnChar_intercalate (sep : Char) :
    ∀ ts, ts ≠ [] → (∀ t ∈ ts, sep ∉ t) →
      splitOnChar sep (List.intercalate [sep] ts) = ts := by
  intro ts
  induction ts with
  | nil => intro h _; exact absurd rfl h
  | cons t rest ih =>
    intro _ hsp
    cases rest with
    | nil =>
      rw [intercalate_one]
      exact splitOnChar_no_sep sep t (hsp t (List.mem_cons_self t []))
    | cons t2 rest2 =>
      rw [intercalate_two,
        show t ++ [sep] ++ List.intercalate [sep] (t2 :: rest2) =
          t ++ sep :: List.intercalate [sep] (t2 :: rest2) by simp,
        splitOnChar_append sep t _ (hsp t (by simp)),
        ih (by simp) (fun x hx => hsp x (List.mem_cons_of_mem t hx))]

/-- Helper: lowercasing commutes with joining chunks by a space. -/
theorem map_toLower_intercalate :
    ∀ ts : List (List Char),
      (List.intercalate [' '] ts).map Char.toLower =
        List.intercalate [' '] (ts.map (fun t => t.map Char.toLower)) := by
  intro ts
  induction ts with
  | nil => rfl
  | cons t rest ih =>
    cases rest with
    | nil => simp [intercalate_one]
    | cons t2 rest2 =>
      simp only [List.map_cons] at ih ⊢
      rw [intercalate_two, intercalate_two, List.map_append, List.map_append, ih,
        show ([' '] : List Char).map Char.toLower = [' '] from by decide]

/-- Helper: when no token is a small word, the indexed title-case map
capitalizes every token. -/
theorem titleWords_all_cap (len : ℕ) :
    ∀ (ws : List (List Char)) (i : ℕ), (∀ w ∈ ws, w ∉ smallWords) →
      titleWords len i ws = ws.map capFirst := by
  intro ws
  induction ws with
  | nil => intro _ _; rfl
  | cons w rest ih =>
    intro i h
    simp only [titleWords, List.map_cons]
    rw [if_pos (Or.inr (Or.inr (h w (by simp)))),
      ih (i + 1) (fun x hx => h x (by simp [hx]))]

/-- Helper: pointwise description of the indexed title-case map — token j is
capitalized exactly when it is first, last, or not a small word. -/
theorem titleWords_getD (len : ℕ) :
    ∀ (ws : List (List Char)) (i j : ℕ), j < ws.length →
      (titleWords len i ws).getD j [] =
        (if i + j = 0 ∨ i + j = len - 1 ∨ ws.getD j [] ∉ smallWords
         then capFirst (ws.getD j []) else ws.getD j []) := by
  intro ws
  induction ws with
  | nil => intro i j hj; simp at hj
  | cons w rest ih =>
    intro i j hj
    cases j with
    | zero => simp [titleWords]
    | succ j2 =>
      have hj2 : j2 < rest.length := by simpa using hj
      simp only [titleWords, List.getD_cons_succ]
      rw [ih (i + 1) j2 hj2, show i + 1 + j2 = i + (j2 + 1) from by omega]

/-- Helper: a space-free token that is a fixed point of
capitalize-after-lowercase stays space-free after lowercasing. -/
theorem lower_space_free (t : List Char) (h1 : ' ' ∉ t)
    (h2 : capFirst (t.map Char.toLower) = t) : ' ' ∉ t.map Char.toLower := by
  cases t with
  | nil => simp
  | cons c cs =>
    simp only [List.map_cons, capFirst, List.cons.injEq] at h2
    obtain ⟨hc, hcs⟩ := h2
    simp only [List.map_cons, hcs, List.mem_cons]
    rintro (h | h)
    · have hcsp : c = ' ' := by
        have hlc : Char.toLower c = ' ' := h.symm
        rw [← hc, hlc]
        decide
      exact h1 (by simp [hcsp])
    · exact h1 (List.mem_cons_of_mem c h)

/-- C8: the title-case transform fixes any phrase of two or more nonempty,
space-free tokens that are each already in capitalized-lowercase form and
whose lowercasings are not small words (idempotence on already-title-cased
phrases of non-small words); moreover on any such phrase the transform is
exactly the indexed per-token map, which capitalizes token j precisely when
j is first, last, or the token is not in the small-word list. -/
theorem c8_title_case (ts : List (List Char)) (hlen : 2 ≤ ts.length)
    (hne : ∀ t ∈ ts, t ≠ []) (hsp : ∀ t ∈ ts, ' ' ∉ t)
    (hfix : ∀ t ∈ ts, capFirst (t.map Char.toLower) = t)
    (hsmall : ∀ t ∈ ts, t.map Char.toLower ∉ smallWords) :
    applyCasing (List.intercalate [' '] ts) .titleCase =
      List.intercalate [' '] ts ∧
    applyCasing (List.intercalate [' '] ts) .titleCase =
      List.intercalate [' ']
        (titleWords ts.length 0 (ts.map (fun t => t.map Char.toLower))) ∧
    (∀ (len i : ℕ) (ws : List (List Char)) (j : ℕ), j < ws.length →
      (titleWords len i ws).getD j [] =
        (if i + j = 0 ∨ i + j = len - 1 ∨ ws.getD j [] ∉ smallWords
         then capFirst (ws.getD j []) else ws.getD j [])) := by
  have hts_ne : ts ≠ [] := by
    intro h
    rw [h] at hlen
    simp at hlen
  have hmap_ne : ts.map (fun t => t.map Char.toLower) ≠ [] := by
    simp [hts_ne]
  have hmap_sp : ∀ t ∈ ts.map (fun t => t.map Char.toLower), ' ' ∉ t := by
    intro t ht
    obtain ⟨u, hu, rfl⟩ := List.mem_map.mp ht
    exact lower_space_free u (hsp u hu) (hfix u hu)
  have hsplit : splitOnChar ' ' ((List.intercalate [' '] ts).map Char.toLower) =
      ts.map (fun t => t.map Char.toLower) := by
    rw [map_toLower_intercalate]
    exact splitOnChar_intercalate ' ' _ hmap_ne hmap_sp
  have hlen2 : (ts.map (fun t => t.map Char.toLower)).length = ts.length := by
    simp
  have hmain : applyCasing (List.intercalate [' '] ts) .titleCase =
      List.intercalate [' ']
        (titleWords ts.length 0 (ts.map (fun t => t.map Char.toLower))) := by
    simp only [applyCasing, hsplit, hlen2]
    rw [if_neg (by omega)]
  refine ⟨?_, hmain, fun len i ws j hj => titleWords_getD len ws i j hj⟩
  rw [hmain, titleWords_all_cap ts.length _ 0 ?_]
  · rw [List.map_map,
      List.map_congr_left (fun t ht =>
        show (capFirst ∘ fun t => t.map Char.toLower) t = id t from hfix t ht),
      List.map_id]
  · intro w hw
    obtain ⟨u, hu, rfl⟩ := List.mem_map.mp hw
    exact hsmall u hu

/-- C8 witness: the already-title-cased phrase of two non-small words is
returned unchanged. -/
theorem c8_witness :
    applyCasing (List.intercalate [' '] ["Design".toList, "Thinking".toList])
        .titleCase =
      List.intercalate [' '] ["Design".toList, "Thinking".toList] :=
  (c8_title_case ["Design".toList, "Thinking".toList] (by decide) (by decide)
    (by decide) (by decide) (by decide)).1

/-- Helper: if the full-padding AABB test reports no overlap, the two
half-padding footprints (rotation-swapped, expanded by padding/2 per side)
are disjoint point sets. -/
theorem checkOverlap_false_disjoint (pad : ℚ) (a b : PlacedRect)
    (hpad : 0 ≤ pad) (h : checkOverlap pad a b = false) :
    Disjoint (footprint (pad / 2) a) (footprint (pad / 2) b) := by
  rw [Set.disjoint_left]
  intro p hpa hpb
  simp only [checkOverlap, Bool.not_eq_false', Bool.or_eq_true,
    decide_eq_true_eq] at h
  simp only [footprint, Set.mem_setOf_eq] at hpa hpb
  obtain ⟨ha1, ha2, ha3, ha4⟩ := hpa
  obtain ⟨hb1, hb2, hb3, hb4⟩ := hpb
  rcases h with ((h | h) | h) | h <;> linarith

/-- Helper: any rectangle the spiral loop accepts carries the label's
dimensions and rotation, passed the overlap test against every
already-placed rectangle, and passed the margin bounds check with its
rotation-swapped footprint. -/
theorem spiralLoopC_some (cosF sinF : ℚ → ℚ) (piQ : ℚ) (cfg : SpacingConfig)
    (w h tw th : ℚ) (rot : ℤ) (placed : List PlacedRect) :
    ∀ (fuel : ℕ) (radius angle : ℚ) (r : PlacedRect),
      (spiralLoopC cosF sinF piQ cfg w h tw th rot placed fuel radius angle).1 =
        some r →
      r.width = tw ∧ r.height = th ∧ r.rotation = rot ∧
      (∀ p ∈ placed, checkOverlap cfg.padding r p = false) ∧
      cfg.margin ≤ r.centerX - rotW r / 2 ∧
      r.centerX + rotW r / 2 ≤ w - cfg.margin ∧
      cfg.margin ≤ r.centerY - rotH r / 2 ∧
      r.centerY + rotH r / 2 ≤ h - cfg.margin := by
  intro fuel
  induction fuel with
  | zero =>
    intro radius angle r hr
    simp [spiralLoopC] at hr
  | succ fuel ih =>
    intro radius angle r hr
    simp only [spiralLoopC] at hr
    split_ifs at hr
    all_goals first
      | exact ih _ _ r hr
      | (rename_i h1 h2 h3 h4
         have hx := Option.some.inj hr
         subst hx
         refine ⟨rfl, rfl, rfl, ?_, ?_, ?_, ?_, ?_⟩
         · intro p hp
           have hb := List.all_eq_true.mp h4 p hp
           simpa using hb
         · simpa [rotW, h2] using h3.1
         · simpa [rotW, h2] using h3.2.1
         · simpa [rotH, h2] using h3.2.2.1
         · simpa [rotH, h2] using h3.2.2.2)
      | simp at hr

/-- Helper: processing a run of non-focused labels preserves pairwise
half-padding disjointness of the accumulated placed-set, extended by the
newly accepted rectangles. -/
theorem positionWords_disjoint_aux (cosF sinF : ℚ → ℚ) (piQ : ℚ)
    (cfg : SpacingConfig) (w h : ℚ) (angles : ℕ → ℚ)
    (hpad : 0 ≤ cfg.padding) :
    ∀ (l : List WordData) (i : ℕ) (placed : List PlacedRect),
      (∀ t ∈ l, t.isCentered = false) →
      placed.Pairwise (fun a b =>
        Disjoint (footprint (cfg.padding / 2) a) (footprint (cfg.padding / 2) b)) →
      (placed ++
        (positionWords cosF sinF piQ cfg w h angles l i placed).filterMap
          (fun e => e.2)).Pairwise (fun a b =>
        Disjoint (footprint (cfg.padding / 2) a) (footprint (cfg.padding / 2) b)) := by
  intro l
  induction l with
  | nil =>
    intro i placed _ hp
    simpa [positionWords] using hp
  | cons t rest ih =>
    intro i placed hnc hp
    have hnt : t.isCentered = false := hnc t (by simp)
    simp only [positionWords]
    cases hres : placeElement cosF sinF piQ cfg w h (angles i * piQ * 2) placed t with
    | none =>
      simp only [List.filterMap_cons_none, pushOpt]
      exact ih (i + 1) placed (fun x hx => hnc x (by simp [hx])) hp
    | some r =>
      have hsp : (spiralLoopC cosF sinF piQ cfg w h t.width t.height t.rotation
          placed 20000 120 (angles i * piQ * 2)).1 = some r := by
        simpa [placeElement, hnt] using hres
      obtain ⟨-, -, -, hov, -⟩ :=
        spiralLoopC_some cosF sinF piQ cfg w h t.width t.height t.rotation
          placed 20000 120 (angles i * piQ * 2) r hsp
      have hpair : (placed ++ [r]).Pairwise (fun a b =>
          Disjoint (footprint (cfg.padding / 2) a) (footprint (cfg.padding / 2) b)) := by
        rw [List.pairwise_append]
        refine ⟨hp, by simp, ?_⟩
        intro a ha b hb
        rw [List.mem_singleton] at hb
        rw [hb]
        exact (checkOverlap_false_disjoint cfg.padding r a hpad (hov a ha)).symm
      have hrec := ih (i + 1) (placed ++ [r])
        (fun x hx => hnc x (by simp [hx])) hpair
      simp only [List.filterMap_cons_some, pushOpt]
      simpa [List.append_assoc] using hrec

/-- C1: in a completed layout pass (the focused label, if any, first and all
following labels unfocused), any two distinct placed rectangles of the
result, each taken with width/height swapped when its rotation is plus or
minus 90 degrees and expanded by padding/2 on each side, are disjoint: the
spiral search only accepts a candidate after the padded-AABB overlap test
against every already-placed rectangle reports no overlap. -/
theorem c1_placed_rects_disjoint (cosF sinF : ℚ → ℚ) (piQ : ℚ)
    (cfg : SpacingConfig) (w h : ℚ) (angles : ℕ → ℚ) (l : List WordData)
    (hpad : 0 ≤ cfg.padding)
    (hc : ∀ t ∈ l.drop 1, t.isCentered = false) :
    ((positionWords cosF sinF piQ cfg w h angles l 0 []).filterMap
      (fun e => e.2)).Pairwise (fun a b =>
        Disjoint (footprint (cfg.padding / 2) a) (footprint (cfg.padding / 2) b)) := by
  cases l with
  | nil => simp [positionWords]
  | cons t rest =>
    have hrest : ∀ x ∈ rest, x.isCentered = false := by simpa using hc
    simp only [positionWords]
    cases hres : placeElement cosF sinF piQ cfg w h (angles 0 * piQ * 2) [] t with
    | none =>
      simp only [List.filterMap_cons_none, pushOpt]
      have := positionWords_disjoint_aux cosF sinF piQ cfg w h angles hpad
        rest 1 [] hrest (by simp)
      simpa using this
    | some r =>
      simp only [List.filterMap_cons_some, pushOpt]
      have := positionWords_disjoint_aux cosF sinF piQ cfg w h angles hpad
        rest 1 [r] hrest (by simp)
      simpa using this

/-- C1 witness: a two-label pass, the focused label first. -/
theorem c1_witness :
    ((positionWords (fun _ => 1) (fun _ => 0) 3 (SPACING_CONFIG .normal)
        700 500 (fun _ => 0)
        [⟨200, 30, 40, [], 0, ['a'], true⟩, ⟨50, 20, 12, [], 0, ['b'], false⟩]
        0 []).filterMap (fun e => e.2)).Pairwise (fun a b =>
      Disjoint (footprint ((SPACING_CONFIG .normal).padding / 2) a)
        (footprint ((SPACING_CONFIG .normal).padding / 2) b)) :=
  c1_placed_rects_disjoint (fun _ => 1) (fun _ => 0) 3 (SPACING_CONFIG .normal)
    700 500 (fun _ => 0)
    [⟨200, 30, 40, [], 0, ['a'], true⟩, ⟨50, 20, 12, [], 0, ['b'], false⟩]
    (by norm_num [SPACING_CONFIG])
    (by
      intro t ht
      simp only [List.drop_succ_cons, List.drop_zero, List.mem_singleton] at ht
      subst ht
      rfl)

/-- C2 (amended): every rectangle placed for a NON-focused label has its
rotation-adjusted footprint entirely inside the margin region
[margin, w - margin] x [margin, h - margin]; the focused label is exempt —
it is pinned at the surface center without any bounds check. -/
theorem c2_nonfocused_in_bounds (cosF sinF : ℚ → ℚ) (piQ : ℚ)
    (cfg : SpacingConfig) (w h : ℚ) (angles : ℕ → ℚ) :
    ∀ (l : List WordData) (i : ℕ) (placed : List PlacedRect) (t : WordData)
      (r : PlacedRect),
      (t, some r) ∈ positionWords cosF sinF piQ cfg w h angles l i placed →
      t.isCentered = false →
      footprint 0 r ⊆ inBoundsSet cfg.margin w h := by
  intro l
  induction l with
  | nil =>
    intro i placed t r hmem
    simp [positionWords] at hmem
  | cons t0 rest ih =>
    intro i placed t r hmem hnc
    simp only [positionWords, List.mem_cons] at hmem
    rcases hmem with heq | hmem2
    · obtain ⟨ht, hres⟩ := Prod.mk.injEq .. |>.mp heq
      subst ht
      have hsp : (spiralLoopC cosF sinF piQ cfg w h t.width t.height t.rotation
          placed 20000 120 (angles i * piQ * 2)).1 = some r := by
        rw [placeElement, if_neg (by simp [hnc])] at hres
        exact hres.symm
      obtain ⟨-, -, -, -, hb1, hb2, hb3, hb4⟩ :=
        spiralLoopC_some cosF sinF piQ cfg w h t.width t.height t.rotation
          placed 20000 120 (angles i * piQ * 2) r hsp
      intro p hp
      simp only [footprint, Set.mem_setOf_eq] at hp
      obtain ⟨hp1, hp2, hp3, hp4⟩ := hp
      exact ⟨by linarith, by linarith, by linarith, by linarith⟩
    · exact ih (i + 1) _ t r hmem2 hnc

/-- C2 counterexample: the original claim fails for the focused label.  A
focused label 700 wide on a 700 x 500 surface with the normal spacing
profile is recorded with a 1050-wide rectangle centered at (350, 250) whose
footprint reaches x = -175, far outside the margin region. -/
theorem c2_counterexample :
    positionWords (fun _ => 0) (fun _ => 0) 0 (SPACING_CONFIG .normal) 700 500
        (fun _ => 0) [⟨700, 30, 40, [], 0, ['w'], true⟩] 0 [] =
      [(⟨700, 30, 40, [], 0, ['w'], true⟩,
        some ⟨700 / 2, 500 / 2, 700 * (3/2), 30 * (3/2), 0⟩)] ∧
    ¬ (footprint 0 ⟨700 / 2, 500 / 2, 700 * (3/2), 30 * (3/2), 0⟩ ⊆
        inBoundsSet (SPACING_CONFIG .normal).margin 700 500) := by
  constructor
  · rfl
  · intro hsub
    have hmem : ((0 : ℚ), (250 : ℚ)) ∈
        footprint 0 ⟨700 / 2, 500 / 2, 700 * (3/2), 30 * (3/2), 0⟩ := by
      simp only [footprint, rotW, rotH, Set.mem_setOf_eq]
      norm_num
    have := hsub hmem
    simp only [inBoundsSet, Set.mem_setOf_eq, SPACING_CONFIG] at this
    norm_num at this

/-- C2 witness: a single non-focused label accepted on the first spiral
probe lies inside the margin region. -/
theorem c2_witness :
    footprint 0 ⟨470, 250, 50, 20, 0⟩ ⊆
      inBoundsSet (SPACING_CONFIG .normal).margin 700 500 :=
  c2_nonfocused_in_bounds (fun _ => 1) (fun _ => 0) 3 (SPACING_CONFIG .normal)
    700 500 (fun _ => 0) [⟨50, 20, 12, [], 0, ['x'], false⟩] 0 []
    ⟨50, 20, 12, [], 0, ['x'], false⟩ ⟨470, 250, 50, 20, 0⟩
    (by
      have hstep : (spiralLoopC (fun _ => 1) (fun _ => 0) 3
          (SPACING_CONFIG .normal) 700 500 50 20 0 [] 20000 120
          0).1 = some ⟨470, 250, 50, 20, 0⟩ := by
        rw [show (20000 : ℕ) = 19999 + 1 from rfl, spiralLoopC]
        norm_num [SPACING_CONFIG, PlacedRect.mk.injEq]
      have hrun : positionWords (fun _ => 1) (fun _ => 0) 3
          (SPACING_CONFIG .normal) 700 500 (fun _ => 0)
          [⟨50, 20, 12, [], 0, ['x'], false⟩] 0 [] =
          [(⟨50, 20, 12, [], 0, ['x'], false⟩, some ⟨470, 250, 50, 20, 0⟩)] := by
        simp only [positionWords, placeElement]
        norm_num [hstep]
      rw [hrun]
      exact List.mem_singleton.mpr rfl)
    rfl

/-- Helper: indexing the singleton rotation list of the focused label yields
rotation 0 whatever the random index is. -/
theorem getD_singleton_zero : ∀ n : ℕ, ([0] : List ℤ).getD n 0 = 0 := by
  intro n
  cases n <;> simp

/-- C3: for every non-empty word list and focus word drawn from it, the
layout pass processes the focused label first and never drops it: the head
of the layout result is the focused label paired with a recorded rectangle
centered exactly at the surface center, with the measured footprint scaled
by 1.5 in both dimensions and the label rotation, which is always 0 for the
focused label. -/
theorem c3_focused_label_centered (cosF sinF : ℚ → ℚ) (piQ : ℚ)
    (cfg : SpacingConfig) (w h : ℚ) (minFontSize maxFontSize : ℤ)
    (colors : List (List Char)) (measureW : List Char → ℤ → ℚ)
    (shuffle : List (List Char) → List (List Char)) (rnd : ℕ → ℚ × ℚ × ℚ)
    (angles : ℕ → ℚ) (words : List (List Char)) (cw : List Char)
    (hw : words ≠ []) (hcw : cw ∈ words) :
    (renderWords cosF sinF piQ cfg w h minFontSize maxFontSize colors
        measureW shuffle rnd angles words (some cw)).head? =
      some (mkLabel minFontSize maxFontSize colors (some cw) measureW (rnd 0) cw,
        some ⟨w / 2, h / 2,
          (mkLabel minFontSize maxFontSize colors (some cw) measureW (rnd 0) cw).width * (3/2),
          (mkLabel minFontSize maxFontSize colors (some cw) measureW (rnd 0) cw).height * (3/2),
          (mkLabel minFontSize maxFontSize colors (some cw) measureW (rnd 0) cw).rotation⟩) ∧
    (mkLabel minFontSize maxFontSize colors (some cw) measureW (rnd 0) cw).word = cw ∧
    (mkLabel minFontSize maxFontSize colors (some cw) measureW (rnd 0) cw).isCentered = true ∧
    (mkLabel minFontSize maxFontSize colors (some cw) measureW (rnd 0) cw).rotation = 0 := by
  have hLc : (mkLabel minFontSize maxFontSize colors (some cw) measureW
      (rnd 0) cw).isCentered = true := by
    simp [mkLabel]
  have hLw : (mkLabel minFontSize maxFontSize colors (some cw) measureW
      (rnd 0) cw).word = cw := by
    simp [mkLabel]
  have hLrot : (mkLabel minFontSize maxFontSize colors (some cw) measureW
      (rnd 0) cw).rotation = 0 := by
    simp [mkLabel, getD_singleton_zero]
  refine ⟨?_, hLw, hLc, hLrot⟩
  simp only [renderWords, buildShuffled, mkLabels, positionWords,
    List.head?_cons]
  rw [placeElement, if_pos hLc]

/-- C3 witness: a two-word list focused on its first word. -/
theorem c3_witness :
    (renderWords (fun _ => 0) (fun _ => 0) 0 (SPACING_CONFIG .normal) 700 500
        12 28 [] (fun _ _ => 0) id (fun _ => (0, 0, 0)) (fun _ => 0)
        [['a'], ['b']] (some ['a'])).head? =
      some (mkLabel 12 28 [] (some ['a']) (fun _ _ => 0) ((fun _ => ((0 : ℚ), (0 : ℚ), (0 : ℚ))) 0) ['a'],
        some ⟨700 / 2, 500 / 2,
          (mkLabel 12 28 [] (some ['a']) (fun _ _ => 0) ((fun _ => ((0 : ℚ), (0 : ℚ), (0 : ℚ))) 0) ['a']).width * (3/2),
          (mkLabel 12 28 [] (some ['a']) (fun _ _ => 0) ((fun _ => ((0 : ℚ), (0 : ℚ), (0 : ℚ))) 0) ['a']).height * (3/2),
          (mkLabel 12 28 [] (some ['a']) (fun _ _ => 0) ((fun _ => ((0 : ℚ), (0 : ℚ), (0 : ℚ))) 0) ['a']).rotation⟩) ∧
    (mkLabel 12 28 [] (some ['a']) (fun _ _ => 0) ((fun _ => ((0 : ℚ), (0 : ℚ), (0 : ℚ))) 0) ['a']).word = ['a'] ∧
    (mkLabel 12 28 [] (some ['a']) (fun _ _ => 0) ((fun _ => ((0 : ℚ), (0 : ℚ), (0 : ℚ))) 0) ['a']).isCentered = true ∧
    (mkLabel 12 28 [] (some ['a']) (fun _ _ => 0) ((fun _ => ((0 : ℚ), (0 : ℚ), (0 : ℚ))) 0) ['a']).rotation = 0 :=
  c3_focused_label_centered (fun _ => 0) (fun _ => 0) 0 (SPACING_CONFIG .normal)
    700 500 12 28 [] (fun _ _ => 0) id (fun _ => (0, 0, 0)) (fun _ => 0)
    [['a'], ['b']] ['a'] (by decide) (by decide)

/-- Helper: the spiral loop executes at most as many iterations as it has
fuel. -/
theorem spiralLoopC_count_le (cosF sinF : ℚ → ℚ) (piQ : ℚ)
    (cfg : SpacingConfig) (w h tw th : ℚ) (rot : ℤ)
    (placed : List PlacedRect) :
    ∀ (fuel : ℕ) (radius angle : ℚ),
      (spiralLoopC cosF sinF piQ cfg w h tw th rot placed fuel radius angle).2 ≤
        fuel := by
  intro fuel
  induction fuel with
  | zero =>
    intro radius angle
    exact Nat.le_refl 0
  | succ fuel ih =>
    intro radius angle
    simp only [spiralLoopC]
    split_ifs <;>
      first
        | exact Nat.succ_le_succ (ih _ _)
        | exact Nat.succ_le_succ (Nat.zero_le fuel)
        | exact Nat.zero_le _

/-- C4: the per-label spiral search always terminates — invoked with fuel
20000 it executes at most 20000 iterations, it stops immediately (zero
further iterations, no placement) as soon as the radius has reached twice
the larger surface dimension, and an element whose search returned no
rectangle is left unplaced and excluded from the rendered entries; the
model is a total function, so exhaustion never raises an error. -/
theorem c4_spiral_termination (cosF sinF : ℚ → ℚ) (piQ : ℚ)
    (cfg : SpacingConfig) (w h tw th : ℚ) (rot : ℤ)
    (placed : List PlacedRect) :
    (∀ radius angle : ℚ,
      (spiralLoopC cosF sinF piQ cfg w h tw th rot placed 20000 radius
        angle).2 ≤ 20000) ∧
    (∀ (fuel : ℕ) (radius angle : ℚ), max w h * 2 ≤ radius →
      spiralLoopC cosF sinF piQ cfg w h tw th rot placed fuel radius angle =
        (none, 0)) ∧
    (∀ (angles : ℕ → ℚ) (l : List WordData) (i : ℕ) (pl : List PlacedRect)
      (e : WordData × Option PlacedRect),
      e ∈ positionWords cosF sinF piQ cfg w h angles l i pl → e.2 = none →
      e ∉ renderedEntries (positionWords cosF sinF piQ cfg w h angles l i pl)) := by
  refine ⟨fun radius angle =>
    spiralLoopC_count_le cosF sinF piQ cfg w h tw th rot placed 20000 radius
      angle, ?_, ?_⟩
  · intro fuel radius angle hrad
    cases fuel with
    | zero => rfl
    | succ fuel =>
      simp only [spiralLoopC]
      rw [if_neg (not_lt.mpr hrad)]
  · intro angles l i pl e _ hnone
    simp [renderedEntries, List.mem_filter, hnone]

/-- C4 witness: the spiral bound at fuel 20000, an immediate stop at an
exhausted radius, and a label left unplaced on a tiny surface excluded from
the rendered entries. -/
theorem c4_witness :
    (spiralLoopC (fun _ => 0) (fun _ => 0) 0 (SPACING_CONFIG .normal) 700 500
        50 20 0 [] 20000 120 0).2 ≤ 20000 ∧
    spiralLoopC (fun _ => 0) (fun _ => 0) 0 (SPACING_CONFIG .normal) 700 500
        50 20 0 [] 5 3000 0 = (none, 0) ∧
    (⟨50, 20, 12, [], 0, ['x'], false⟩, (none : Option PlacedRect)) ∉
      renderedEntries (positionWords (fun _ => 0) (fun _ => 0) 0
        (SPACING_CONFIG .normal) 10 10 (fun _ => 0)
        [⟨50, 20, 12, [], 0, ['x'], false⟩] 0 []) := by
  refine ⟨(c4_spiral_termination (fun _ => 0) (fun _ => 0) 0
      (SPACING_CONFIG .normal) 700 500 50 20 0 []).1 120 0,
    (c4_spiral_termination (fun _ => 0) (fun _ => 0) 0
      (SPACING_CONFIG .normal) 700 500 50 20 0 []).2.1 5 3000 0 (by norm_num),
    (c4_spiral_termination (fun _ => 0) (fun _ => 0) 0
      (SPACING_CONFIG .normal) 10 10 50 20 0 []).2.2 (fun _ => 0)
      [⟨50, 20, 12, [], 0, ['x'], false⟩] 0 []
      (⟨50, 20, 12, [], 0, ['x'], false⟩, none) ?_ rfl⟩
  have hstep : (spiralLoopC (fun _ => (0 : ℚ)) (fun _ => 0) 0
      (SPACING_CONFIG .normal) 10 10 50 20 0 [] 20000 120 0).1 = none := by
    rw [show (20000 : ℕ) = 19999 + 1 from rfl, spiralLoopC]
    norm_num
  simp only [positionWords, placeElement]
  norm_num [hstep]
